import Mathlib

/-!
Shallow embedding of the Snake game simulation core
(grid model, entity state, collision and food placement rules,
simulation step, difficulty curve, state machine, input mapper).
Rendering, audio and localStorage persistence are presentation glue
and are outside the simulation core modelled here.
-/

namespace Snake

/-- A grid cell: the `Position` type `{ x: number; y: number }`.
Coordinates are integers (candidate heads may leave the grid, e.g. x = -1). -/
structure Pos where
  x : Int
  y : Int
deriving DecidableEq, Repr

/-- The four headings (`type Direction = keyof typeof DIRECTIONS`). -/
inductive Direction where
  | up | down | left | right
deriving DecidableEq, Repr

/-- The `DIRECTIONS` table of unit vectors. -/
def dirVec : Direction → Pos
  | .up => ⟨0, -1⟩
  | .down => ⟨0, 1⟩
  | .left => ⟨-1, 0⟩
  | .right => ⟨1, 0⟩

/-- `type GameState = "menu" | "playing" | "paused" | "gameOver"`. -/
inductive GState where
  | menu | playing | paused | gameOver
deriving DecidableEq, Repr

def GRID_SIZE : Int := 20
def INITIAL_SPEED : Int := 150
def SPEED_INCREASE : Int := 10
def MIN_SPEED : Int := 50

/-- The reactive state held by the component (`useState` hooks):
gameState, snake, direction, food, score, highScore, speed, level. -/
structure GameSt where
  gameState : GState
  snake : List Pos
  direction : Direction
  food : Pos
  score : Nat
  highScore : Nat
  speed : Int
  level : Nat
deriving DecidableEq, Repr

/-- The initial values of the `useState` hooks:
menu, snake `[{x:10,y:10}]`, direction RIGHT, food `{x:15,y:15}`,
score 0, highScore 0, speed `INITIAL_SPEED`, level 1. -/
def initialState : GameSt :=
  { gameState := .menu
    snake := [⟨10, 10⟩]
    direction := .right
    food := ⟨15, 15⟩
    score := 0
    highScore := 0
    speed := INITIAL_SPEED
    level := 1 }

/-- `cells.some(segment => segment.x === c.x && segment.y === c.y)`:
whether cell `c` coincides with some cell of the list. -/
def onCell (cells : List Pos) (c : Pos) : Bool :=
  cells.any fun seg => seg.x == c.x && seg.y == c.y

/-- `checkCollision(head, body)`: wall collision
(`head.x < 0 || head.x >= GRID_SIZE || head.y < 0 || head.y >= GRID_SIZE`)
or self collision (`body.some(...)`). -/
def checkCollision (hd : Pos) (body : List Pos) : Bool :=
  if hd.x < 0 ∨ GRID_SIZE ≤ hd.x ∨ hd.y < 0 ∨ GRID_SIZE ≤ hd.y then true
  else onCell body hd

/-- `generateFood(snakePositions)`: the do-while resampling loop.
The random draws `Math.floor(Math.random() * GRID_SIZE)` pairs are modelled
as a stream `rnd` of sampled cells, consumed one per iteration starting at
index `i`; `fuel` bounds the number of iterations observed (the source loop
is unbounded, so running out of fuel yields `none` rather than a result). -/
def generateFoodLoop (snakePositions : List Pos) (rnd : Nat → Pos) :
    Nat → Nat → Option Pos
  | 0, _ => none
  | fuel + 1, i =>
    let newFood := rnd i
    if onCell snakePositions newFood then
      generateFoodLoop snakePositions rnd fuel (i + 1)
    else
      some newFood

/-- `Math.max(MIN_SPEED, INITIAL_SPEED - (newLevel - 1) * SPEED_INCREASE)`. -/
def speedFor (lvl : Nat) : Int :=
  max MIN_SPEED (INITIAL_SPEED - ((lvl : Int) - 1) * SPEED_INCREASE)

/-- `moveSnake()`: one simulation step. Returns early (state unchanged) unless
playing; otherwise advances the head by the current direction vector, checks
collision against the whole current snake, and on food hit bumps score,
regenerates food and recomputes level and speed, else pops the tail.
`none` marks the behaviours the source cannot produce in reachable states
(empty snake) or a food-resampling loop that never observes a free cell. -/
def moveSnake (rnd : Nat → Pos) (fuel : Nat) (s : GameSt) : Option GameSt :=
  if s.gameState ≠ .playing then some s
  else
    match s.snake with
    | [] => none
    | h0 :: t =>
      let d := dirVec s.direction
      let hd : Pos := ⟨h0.x + d.x, h0.y + d.y⟩
      if checkCollision hd (h0 :: t) then
        some { s with
                gameState := .gameOver
                highScore := if s.score > s.highScore then s.score else s.highScore }
      else
        let newSnake := hd :: h0 :: t
        if hd.x == s.food.x && hd.y == s.food.y then
          match generateFoodLoop newSnake rnd fuel 0 with
          | none => none
          | some f =>
            let newScore := s.score + 1
            let newLevel := newScore / 5 + 1
            if newLevel ≠ s.level then
              some { s with
                      snake := newSnake
                      score := newScore
                      food := f
                      level := newLevel
                      speed := speedFor newLevel }
            else
              some { s with snake := newSnake, score := newScore, food := f }
        else
          some { s with snake := newSnake.dropLast }

/-- The key codes the handler inspects. -/
inductive Key where
  | space | enter | keyR
  | arrowUp | keyW | arrowDown | keyS | arrowLeft | keyA | arrowRight | keyD
deriving DecidableEq, Repr

/-- `startGame()`: only sets gameState to playing (sound is presentation). -/
def startGame (s : GameSt) : GameSt :=
  { s with gameState := .playing }

/-- `togglePause()`. -/
def togglePause (s : GameSt) : GameSt :=
  if s.gameState = .playing then { s with gameState := .paused }
  else if s.gameState = .paused then { s with gameState := .playing }
  else s

/-- `resetGame()`: re-initializes snake, direction, food, score, speed,
level and enters playing; highScore is untouched. -/
def resetGame (s : GameSt) : GameSt :=
  { s with
      snake := [⟨10, 10⟩]
      direction := .right
      food := ⟨15, 15⟩
      score := 0
      speed := INITIAL_SPEED
      level := 1
      gameState := .playing }

/-- `handleKeyPress(e)`: menu + Space/Enter starts; gameOver + R resets;
while playing or paused, Space toggles pause, R resets, and direction keys
set the heading unless the change would reverse it. -/
def handleKeyPress (s : GameSt) (k : Key) : GameSt :=
  if s.gameState = .menu ∧ (k = .space ∨ k = .enter) then startGame s
  else if s.gameState = .gameOver ∧ k = .keyR then resetGame s
  else if s.gameState = .playing ∨ s.gameState = .paused then
    match k with
    | .space => togglePause s
    | .keyR => resetGame s
    | .enter => s
    | .arrowUp | .keyW =>
        if s.direction ≠ .down then { s with direction := .up } else s
    | .arrowDown | .keyS =>
        if s.direction ≠ .up then { s with direction := .down } else s
    | .arrowLeft | .keyA =>
        if s.direction ≠ .right then { s with direction := .left } else s
    | .arrowRight | .keyD =>
        if s.direction ≠ .left then { s with direction := .right } else s
  else s

/-- An external event: a key press, or a tick of the frame-driven loop
(carrying the food-sampling stream and a fuel bound for the resampling
loop; the timing threshold itself is presentation-level). -/
inductive Ev where
  | key : Key → Ev
  | tick : (Nat → Pos) → Nat → Ev

/-- One event applied to a state. -/
def stepEv (s : GameSt) : Ev → Option GameSt
  | .key k => some (handleKeyPress s k)
  | .tick rnd fuel => moveSnake rnd fuel s

/-- States reachable from the initial state by any sequence of events. -/
inductive Reachable : GameSt → Prop where
  | init : Reachable initialState
  | step {s s' : GameSt} (e : Ev) :
      Reachable s → stepEv s e = some s' → Reachable s'

/-- Cell within the 20 by 20 grid. -/
def inGrid (c : Pos) : Prop :=
  0 ≤ c.x ∧ c.x < GRID_SIZE ∧ 0 ≤ c.y ∧ c.y < GRID_SIZE

instance (c : Pos) : Decidable (inGrid c) := by
  unfold inGrid; infer_instance

theorem onCell_iff (L : List Pos) (c : Pos) : onCell L c = true ↔ c ∈ L := by
  simp only [onCell, List.any_eq_true, Bool.and_eq_true, beq_iff_eq]
  constructor
  · rintro ⟨seg, hm, hx, hy⟩
    cases seg; cases c
    simp_all
  · intro hm
    exact ⟨c, hm, rfl, rfl⟩

theorem onCell_false_iff (L : List Pos) (c : Pos) : onCell L c = false ↔ c ∉ L := by
  rw [Bool.eq_false_iff, ne_eq, onCell_iff]

theorem checkCollision_false_iff (hd : Pos) (body : List Pos) :
    checkCollision hd body = false ↔ inGrid hd ∧ hd ∉ body := by
  unfold checkCollision inGrid GRID_SIZE
  split_ifs with hwall
  · simp only [Bool.true_eq_false, false_iff]
    rintro ⟨⟨h1, h2, h3, h4⟩, -⟩
    omega
  · rw [onCell_false_iff]
    constructor
    · intro hmem
      exact ⟨by omega, hmem⟩
    · exact fun h => h.2

theorem generateFoodLoop_some_free (sn : List Pos) (rnd : Nat → Pos) :
    ∀ fuel i f, generateFoodLoop sn rnd fuel i = some f → onCell sn f = false := by
  intro fuel
  induction fuel with
  | zero => intro i f h; simp [generateFoodLoop] at h
  | succ n ih =>
    intro i f h
    unfold generateFoodLoop at h
    dsimp only at h
    split_ifs at h with hocc
    · exact ih (i + 1) f h
    · cases h
      exact Bool.eq_false_iff.mpr hocc

theorem generateFoodLoop_reaches (sn : List Pos) (rnd : Nat → Pos) :
    ∀ k i, onCell sn (rnd (i + k)) = false →
      ∃ fuel f, generateFoodLoop sn rnd fuel i = some f := by
  intro k
  induction k with
  | zero =>
    intro i h
    refine ⟨1, rnd i, ?_⟩
    unfold generateFoodLoop
    simp only [Nat.add_zero] at h
    simp [h]
  | succ n ih =>
    intro i h
    by_cases hi : onCell sn (rnd i) = false
    · exact ⟨1, rnd i, by unfold generateFoodLoop; simp [hi]⟩
    · have h1 : onCell sn (rnd ((i + 1) + n)) = false := by
        have : (i + 1) + n = i + (n + 1) := by omega
        rw [this]; exact h
      obtain ⟨fuel, f, hf⟩ := ih (i + 1) h1
      refine ⟨fuel + 1, f, ?_⟩
      unfold generateFoodLoop
      simp only [Bool.not_eq_false] at hi
      simp [hi, hf]

/-- The state invariant maintained by every event: the snake is nonempty,
all its cells are on the grid, the food is off the snake, and level and
speed are the derived values of score. -/
def Inv (s : GameSt) : Prop :=
  s.snake ≠ [] ∧
  (∀ c ∈ s.snake, inGrid c) ∧
  onCell s.snake s.food = false ∧
  s.level = s.score / 5 + 1 ∧
  s.speed = speedFor s.level

theorem inv_initialState : Inv initialState := by
  refine ⟨by simp [initialState], ?_, by decide, by decide, by decide⟩
  intro c hc
  simp only [initialState, List.mem_singleton] at hc
  subst hc
  decide

theorem inv_resetGame (s : GameSt) : Inv (resetGame s) := by
  unfold Inv resetGame
  dsimp only
  refine ⟨by simp, ?_, by decide, by decide, by decide⟩
  intro c hc
  simp only [List.mem_singleton] at hc
  subst hc
  decide

theorem inv_of_fields_eq (s s' : GameSt)
    (h1 : s'.snake = s.snake) (h2 : s'.food = s.food) (h3 : s'.score = s.score)
    (h4 : s'.level = s.level) (h5 : s'.speed = s.speed) (h : Inv s) : Inv s' := by
  unfold Inv
  rw [h1, h2, h3, h4, h5]
  exact h

theorem handleKeyPress_cases (s : GameSt) (k : Key) :
    handleKeyPress s k = resetGame s ∨
    ((handleKeyPress s k).snake = s.snake ∧ (handleKeyPress s k).food = s.food ∧
     (handleKeyPress s k).score = s.score ∧ (handleKeyPress s k).level = s.level ∧
     (handleKeyPress s k).speed = s.speed ∧
     (handleKeyPress s k).highScore = s.highScore) := by
  cases k <;>
    (simp only [handleKeyPress, startGame, togglePause]
     split_ifs <;> simp)

theorem inv_handleKeyPress (s : GameSt) (k : Key) (h : Inv s) :
    Inv (handleKeyPress s k) := by
  rcases handleKeyPress_cases s k with heq | ⟨h1, h2, h3, h4, h5, -⟩
  · rw [heq]; exact inv_resetGame s
  · exact inv_of_fields_eq s _ h1 h2 h3 h4 h5 h


theorem foodEq_iff (p q : Pos) : (p.x == q.x && p.y == q.y) = true ↔ p = q := by
  cases p; cases q
  simp [Pos.mk.injEq]

theorem inv_moveSnake (rnd : Nat → Pos) (fuel : Nat) (s s' : GameSt)
    (h : Inv s) (hm : moveSnake rnd fuel s = some s') : Inv s' := by
  by_cases hg : s.gameState = GState.playing
  case neg =>
    unfold moveSnake at hm
    rw [if_pos hg] at hm
    cases hm
    exact h
  case pos =>
    obtain ⟨hne, hgrid, hfood, hlev, hspd⟩ := h
    rcases hsn : s.snake with _ | ⟨h0, t⟩
    · exact absurd hsn hne
    unfold moveSnake at hm
    rw [if_neg (by simp [hg]), hsn] at hm
    rw [hsn] at hgrid hfood
    dsimp only at hm
    by_cases hcol :
        checkCollision ⟨h0.x + (dirVec s.direction).x, h0.y + (dirVec s.direction).y⟩
          (h0 :: t) = true
    · rw [if_pos hcol] at hm
      cases hm
      exact ⟨List.cons_ne_nil h0 t, hgrid, hfood, hlev, hspd⟩
    · rw [if_neg hcol] at hm
      have hingrid :
          inGrid ⟨h0.x + (dirVec s.direction).x, h0.y + (dirVec s.direction).y⟩ :=
        ((checkCollision_false_iff _ _).mp (Bool.eq_false_iff.mpr hcol)).1
      by_cases hf :
          ((⟨h0.x + (dirVec s.direction).x, h0.y + (dirVec s.direction).y⟩ : Pos).x == s.food.x &&
           (⟨h0.x + (dirVec s.direction).x, h0.y + (dirVec s.direction).y⟩ : Pos).y == s.food.y) = true
      · rw [if_pos hf] at hm
        rcases hgen : generateFoodLoop
            (⟨h0.x + (dirVec s.direction).x, h0.y + (dirVec s.direction).y⟩ :: h0 :: t)
            rnd fuel 0 with _ | f
        · rw [hgen] at hm
          cases hm
        · rw [hgen] at hm
          dsimp only at hm
          have hfree := generateFoodLoop_some_free _ rnd fuel 0 f hgen
          have hcells :
              ∀ c ∈ (⟨h0.x + (dirVec s.direction).x, h0.y + (dirVec s.direction).y⟩ : Pos)
                  :: h0 :: t, inGrid c := by
            intro c hc
            rcases List.mem_cons.mp hc with rfl | hc2
            · exact hingrid
            · exact hgrid c hc2
          by_cases hlv : (s.score + 1) / 5 + 1 ≠ s.level
          · rw [if_pos hlv] at hm
            cases hm
            exact ⟨List.cons_ne_nil _ _, hcells, hfree, rfl, rfl⟩
          · rw [if_neg hlv] at hm
            cases hm
            push_neg at hlv
            exact ⟨List.cons_ne_nil _ _, hcells, hfree, hlv.symm, hspd⟩
      · rw [if_neg hf] at hm
        cases hm
        have hdne :
            (⟨h0.x + (dirVec s.direction).x, h0.y + (dirVec s.direction).y⟩ : Pos) ≠ s.food := by
          intro he
          exact hf ((foodEq_iff _ _).mpr he)
        refine ⟨?_, ?_, ?_, hlev, hspd⟩
        · show (_ :: h0 :: t).dropLast ≠ []
          intro hnil
          have := congrArg List.length hnil
          simp at this
        · intro c hc
          have hc2 := List.dropLast_subset _ hc
          rcases List.mem_cons.mp hc2 with rfl | hc3
          · exact hingrid
          · exact hgrid c hc3
        · show onCell (_ :: h0 :: t).dropLast s.food = false
          rw [onCell_false_iff]
          intro hmem
          have hmem2 := List.dropLast_subset _ hmem
          rcases List.mem_cons.mp hmem2 with heq | hmem3
          · exact hdne heq.symm
          · rw [onCell_false_iff] at hfood
            exact hfood hmem3
/-- The candidate head of the next step: current head plus the current
direction vector (`none` only for the unreachable empty snake). -/
def candHead (s : GameSt) : Option Pos :=
  match s.snake with
  | [] => none
  | h0 :: _ => some ⟨h0.x + (dirVec s.direction).x, h0.y + (dirVec s.direction).y⟩

/-- Whether the next tick from `s` detects a terminal collision. -/
def collisionTick (s : GameSt) : Bool :=
  s.gameState == .playing &&
    (match candHead s with
     | none => false
     | some c => checkCollision c s.snake)

theorem moveSnake_collision (rnd : Nat → Pos) (fuel : Nat) (s : GameSt)
    (h0 : Pos) (t : List Pos) (hg : s.gameState = GState.playing)
    (hsn : s.snake = h0 :: t)
    (hcol : checkCollision ⟨h0.x + (dirVec s.direction).x, h0.y + (dirVec s.direction).y⟩
      (h0 :: t) = true) :
    moveSnake rnd fuel s =
      some { s with
              gameState := .gameOver
              highScore := if s.score > s.highScore then s.score else s.highScore } := by
  unfold moveSnake
  rw [if_neg (by simp [hg]), hsn]
  dsimp only
  rw [if_pos hcol]

theorem moveSnake_no_eat (rnd : Nat → Pos) (fuel : Nat) (s : GameSt)
    (h0 : Pos) (t : List Pos) (hg : s.gameState = GState.playing)
    (hsn : s.snake = h0 :: t)
    (hcol : checkCollision ⟨h0.x + (dirVec s.direction).x, h0.y + (dirVec s.direction).y⟩
      (h0 :: t) = false)
    (hf : (⟨h0.x + (dirVec s.direction).x, h0.y + (dirVec s.direction).y⟩ : Pos) ≠ s.food) :
    moveSnake rnd fuel s =
      some { s with
              snake := ((⟨h0.x + (dirVec s.direction).x, h0.y + (dirVec s.direction).y⟩ : Pos)
                :: h0 :: t).dropLast } := by
  unfold moveSnake
  rw [if_neg (by simp [hg]), hsn]
  dsimp only
  rw [if_neg (by rw [hcol]; simp), if_neg (fun hb => hf ((foodEq_iff _ _).mp hb))]

theorem moveSnake_cases (rnd : Nat → Pos) (fuel : Nat) (s s' : GameSt)
    (hm : moveSnake rnd fuel s = some s') :
    (s.gameState ≠ .playing ∧ s' = s) ∨
    (s.gameState = .playing ∧ collisionTick s = true ∧
      s' = { s with
              gameState := .gameOver
              highScore := if s.score > s.highScore then s.score else s.highScore }) ∨
    (s.gameState = .playing ∧ collisionTick s = false ∧
      s'.gameState = .playing ∧ s'.highScore = s.highScore) := by
  by_cases hg : s.gameState = GState.playing
  case neg =>
    unfold moveSnake at hm
    rw [if_pos hg] at hm
    cases hm
    exact Or.inl ⟨hg, rfl⟩
  case pos =>
    rcases hsn : s.snake with _ | ⟨h0, t⟩
    · unfold moveSnake at hm
      rw [if_neg (by simp [hg]), hsn] at hm
      cases hm
    · have hct : collisionTick s =
          checkCollision ⟨h0.x + (dirVec s.direction).x, h0.y + (dirVec s.direction).y⟩
            (h0 :: t) := by
        unfold collisionTick candHead
        rw [hsn]
        simp [hg]
      unfold moveSnake at hm
      rw [if_neg (by simp [hg]), hsn] at hm
      dsimp only at hm
      by_cases hcol :
          checkCollision ⟨h0.x + (dirVec s.direction).x, h0.y + (dirVec s.direction).y⟩
            (h0 :: t) = true
      · rw [if_pos hcol] at hm
        cases hm
        refine Or.inr (Or.inl ⟨hg, by rw [hct, hcol], ?_⟩)
        cases s
        simp_all
      · rw [if_neg hcol] at hm
        refine Or.inr (Or.inr ⟨hg, by rw [hct]; exact Bool.eq_false_iff.mpr hcol, ?_⟩)
        by_cases hf :
            ((⟨h0.x + (dirVec s.direction).x, h0.y + (dirVec s.direction).y⟩ : Pos).x == s.food.x &&
             (⟨h0.x + (dirVec s.direction).x, h0.y + (dirVec s.direction).y⟩ : Pos).y == s.food.y) = true
        · rw [if_pos hf] at hm
          rcases hgen : generateFoodLoop
              ((⟨h0.x + (dirVec s.direction).x, h0.y + (dirVec s.direction).y⟩ : Pos) :: h0 :: t)
              rnd fuel 0 with _ | f
          · rw [hgen] at hm; cases hm
          · rw [hgen] at hm
            dsimp only at hm
            by_cases hlv : (s.score + 1) / 5 + 1 ≠ s.level
            · rw [if_pos hlv] at hm
              cases hm
              exact ⟨hg, rfl⟩
            · rw [if_neg hlv] at hm
              cases hm
              exact ⟨hg, rfl⟩
        · rw [if_neg hf] at hm
          cases hm
          exact ⟨hg, rfl⟩

theorem reachable_inv (s : GameSt) (h : Reachable s) : Inv s := by
  induction h with
  | init => exact inv_initialState
  | step e hr hstep ih =>
    cases e with
    | key k =>
      simp only [stepEv] at hstep
      cases hstep
      exact inv_handleKeyPress _ k ih
    | tick rnd fuel =>
      simp only [stepEv] at hstep
      exact inv_moveSnake rnd fuel _ _ ih hstep

theorem handleKeyPress_menu_fix (s : GameSt) (k : Key)
    (h : (handleKeyPress s k).gameState = GState.menu) : handleKeyPress s k = s := by
  cases k <;>
    (simp only [handleKeyPress, startGame, togglePause, resetGame] at h ⊢
     split_ifs at h ⊢ <;> simp_all)

theorem reachable_menu_eq (s : GameSt) (h : Reachable s) (hm : s.gameState = GState.menu) :
    s = initialState := by
  induction h with
  | init => rfl
  | step e hr hstep ih =>
    cases e with
    | key k =>
      simp only [stepEv] at hstep
      cases hstep
      have hfix := handleKeyPress_menu_fix _ k hm
      rw [hfix] at hm ⊢
      exact ih hm
    | tick rnd fuel =>
      simp only [stepEv] at hstep
      rcases moveSnake_cases rnd fuel _ _ hstep with ⟨hg, rfl⟩ | ⟨hg, hc, rfl⟩ | ⟨hg, hc, hgs, hh⟩
      · exact ih hm
      · simp at hm
      · rw [hgs] at hm
        cases hm

theorem moveSnake_eat_result (rnd : Nat → Pos) (fuel : Nat) (s s' : GameSt)
    (h0 : Pos) (t : List Pos) (hg : s.gameState = GState.playing)
    (hsn : s.snake = h0 :: t)
    (hcol : checkCollision ⟨h0.x + (dirVec s.direction).x, h0.y + (dirVec s.direction).y⟩
      (h0 :: t) = false)
    (hf : (⟨h0.x + (dirVec s.direction).x, h0.y + (dirVec s.direction).y⟩ : Pos) = s.food)
    (hm : moveSnake rnd fuel s = some s') :
    s'.snake = (⟨h0.x + (dirVec s.direction).x, h0.y + (dirVec s.direction).y⟩ : Pos)
      :: h0 :: t ∧
    s'.score = s.score + 1 := by
  unfold moveSnake at hm
  rw [if_neg (by simp [hg]), hsn] at hm
  dsimp only at hm
  rw [if_neg (Bool.eq_false_iff.mp hcol), if_pos ((foodEq_iff _ _).mpr hf)] at hm
  rcases hgen : generateFoodLoop
      ((⟨h0.x + (dirVec s.direction).x, h0.y + (dirVec s.direction).y⟩ : Pos) :: h0 :: t)
      rnd fuel 0 with _ | f
  · rw [hgen] at hm; cases hm
  · rw [hgen] at hm
    dsimp only at hm
    by_cases hlv : (s.score + 1) / 5 + 1 ≠ s.level
    · rw [if_pos hlv] at hm
      cases hm
      exact ⟨rfl, rfl⟩
    · rw [if_neg hlv] at hm
      cases hm
      exact ⟨rfl, rfl⟩

/-- C1: from every Playing state, one simulation step computes the candidate
head as the current head plus the current heading unit vector; if the
candidate is off the 20 by 20 grid or coincides with a current snake cell the
state transitions to GameOver; otherwise the candidate is prepended, and the
tail is removed exactly when the candidate is not the food cell (net length
+1 when it is). -/
theorem moveSnake_playing_step (rnd : Nat → Pos) (fuel : Nat) (s : GameSt) (cand : Pos)
    (hg : s.gameState = GState.playing) (hcand : candHead s = some cand) :
    ((¬ inGrid cand ∨ cand ∈ s.snake) →
      ∃ s', moveSnake rnd fuel s = some s' ∧ s'.gameState = GState.gameOver) ∧
    (inGrid cand → cand ∉ s.snake → cand = s.food →
      ∀ s', moveSnake rnd fuel s = some s' →
        s'.snake = cand :: s.snake ∧ s'.snake.length = s.snake.length + 1) ∧
    (inGrid cand → cand ∉ s.snake → cand ≠ s.food →
      moveSnake rnd fuel s = some { s with snake := (cand :: s.snake).dropLast }) := by
  rcases hsn : s.snake with _ | ⟨h0, t⟩
  · unfold candHead at hcand
    rw [hsn] at hcand
    cases hcand
  · unfold candHead at hcand
    rw [hsn] at hcand
    dsimp only at hcand
    injection hcand with hcand
    refine ⟨?_, ?_, ?_⟩
    · intro hbad
      have hcol : checkCollision cand (h0 :: t) = true := by
        cases hcc : checkCollision cand (h0 :: t)
        · exfalso
          have hok := (checkCollision_false_iff _ _).mp hcc
          rcases hbad with hb | hb
          · exact hb hok.1
          · exact hok.2 hb
        · rfl
      rw [← hcand] at hcol
      exact ⟨_, moveSnake_collision rnd fuel s h0 t hg hsn hcol, rfl⟩
    · intro hin hnm hfood s' hm
      have hcol : checkCollision cand (h0 :: t) = false :=
        (checkCollision_false_iff _ _).mpr ⟨hin, hnm⟩
      rw [← hcand] at hcol hfood
      have hres := moveSnake_eat_result rnd fuel s s' h0 t hg hsn hcol hfood hm
      rw [hcand] at hres
      exact ⟨hres.1, by rw [hres.1]; simp⟩
    · intro hin hnm hfood
      have hcol : checkCollision cand (h0 :: t) = false :=
        (checkCollision_false_iff _ _).mpr ⟨hin, hnm⟩
      rw [← hcand] at hcol hfood
      have heq := moveSnake_no_eat rnd fuel s h0 t hg hsn hcol hfood
      rw [heq, hcand]

/-- C1 witness: a concrete Playing state whose candidate head is on the grid,
off the snake and not the food: the step drops the tail. -/
theorem moveSnake_playing_step_witness :
    moveSnake (fun _ => ⟨0, 0⟩) 1
        { gameState := .playing, snake := [⟨10, 10⟩], direction := .right,
          food := ⟨15, 15⟩, score := 0, highScore := 0, speed := 150, level := 1 } =
      some { gameState := .playing, snake := [⟨11, 10⟩], direction := .right,
             food := ⟨15, 15⟩, score := 0, highScore := 0, speed := 150, level := 1 } := by
  have h := (moveSnake_playing_step (fun _ => ⟨0, 0⟩) 1
      { gameState := .playing, snake := [⟨10, 10⟩], direction := .right,
        food := ⟨15, 15⟩, score := 0, highScore := 0, speed := 150, level := 1 }
      ⟨11, 10⟩ rfl rfl).2.2 (by decide) (by decide) (by decide)
  exact h

/-- C10: a step that detects a terminal collision leaves snake, food, score,
level, speed and direction unchanged; only gameState (to GameOver) and
possibly highScore change, the latter exactly when score exceeds it. -/
theorem collision_step_preserves_fields (rnd : Nat → Pos) (fuel : Nat)
    (s s' : GameSt) (cand : Pos)
    (hg : s.gameState = GState.playing) (hcand : candHead s = some cand)
    (hcol : checkCollision cand s.snake = true)
    (hm : moveSnake rnd fuel s = some s') :
    s'.snake = s.snake ∧ s'.food = s.food ∧ s'.score = s.score ∧
    s'.level = s.level ∧ s'.speed = s.speed ∧ s'.direction = s.direction ∧
    s'.gameState = GState.gameOver ∧
    s'.highScore = (if s.score > s.highScore then s.score else s.highScore) := by
  rcases hsn : s.snake with _ | ⟨h0, t⟩
  · unfold candHead at hcand
    rw [hsn] at hcand
    cases hcand
  · unfold candHead at hcand
    rw [hsn] at hcand
    dsimp only at hcand
    injection hcand with hcand
    rw [hsn, ← hcand] at hcol
    rw [moveSnake_collision rnd fuel s h0 t hg hsn hcol] at hm
    cases hm
    exact ⟨hsn, rfl, rfl, rfl, rfl, rfl, rfl, rfl⟩

/-- C10 witness: moving left from x = 0 exits the grid; every other field is
preserved. -/
theorem collision_step_preserves_fields_witness :
    ∃ s', moveSnake (fun _ => ⟨0, 0⟩) 1
        { gameState := .playing, snake := [⟨0, 5⟩], direction := .left,
          food := ⟨15, 15⟩, score := 3, highScore := 1, speed := 150, level := 1 } =
        some s' ∧
      s'.snake = [⟨0, 5⟩] ∧ s'.score = 3 ∧ s'.gameState = GState.gameOver ∧
      s'.highScore = 3 := by
  refine ⟨{ gameState := .gameOver, snake := [⟨0, 5⟩], direction := .left,
            food := ⟨15, 15⟩, score := 3, highScore := 3, speed := 150, level := 1 },
          by decide, ?_⟩
  have h := collision_step_preserves_fields (fun _ => ⟨0, 0⟩) 1
      { gameState := .playing, snake := [⟨0, 5⟩], direction := .left,
        food := ⟨15, 15⟩, score := 3, highScore := 1, speed := 150, level := 1 }
      { gameState := .gameOver, snake := [⟨0, 5⟩], direction := .left,
        food := ⟨15, 15⟩, score := 3, highScore := 3, speed := 150, level := 1 }
      ⟨-1, 5⟩ rfl (by decide) (by decide) (by decide)
  exact ⟨h.1, h.2.2.1, h.2.2.2.2.2.2.1, by decide⟩

/-- C8: the high score changes only at a terminal collision, where it is set
to the current score exactly when the score strictly exceeds it; key events
and collision-free ticks never modify it. -/
theorem highScore_only_collision (s s' : GameSt) (e : Ev)
    (h : stepEv s e = some s') :
    ((∃ k, e = Ev.key k) → s'.highScore = s.highScore) ∧
    (∀ rnd fuel, e = Ev.tick rnd fuel →
      (collisionTick s = false → s'.highScore = s.highScore) ∧
      (collisionTick s = true →
        s'.highScore = (if s.score > s.highScore then s.score else s.highScore))) := by
  constructor
  · rintro ⟨k, rfl⟩
    simp only [stepEv] at h
    cases h
    rcases handleKeyPress_cases s k with heq | hfields
    · rw [heq]
      rfl
    · exact hfields.2.2.2.2.2
  · rintro rnd fuel rfl
    simp only [stepEv] at h
    rcases moveSnake_cases rnd fuel s s' h with ⟨hg, hse⟩ | ⟨hg, hc, rfl⟩ | ⟨hg, hc, hgs, hh⟩
    · have hcf : collisionTick s = false := by
        unfold collisionTick
        have hb : (s.gameState == GState.playing) = false := by
          simpa using hg
        rw [hb]
        rfl
      refine ⟨fun _ => by rw [hse], fun ht => ?_⟩
      rw [hcf] at ht
      cases ht
    · refine ⟨fun hf => ?_, fun _ => rfl⟩
      rw [hc] at hf
      cases hf
    · refine ⟨fun _ => hh, fun ht => ?_⟩
      rw [hc] at ht
      cases ht

/-- C8 witness: a key press from the initial state leaves the high score
unchanged. -/
theorem highScore_only_collision_witness :
    stepEv initialState (Ev.key Key.space) = some (startGame initialState) ∧
    (startGame initialState).highScore = initialState.highScore := by
  refine ⟨rfl, ?_⟩
  exact (highScore_only_collision initialState (startGame initialState)
    (Ev.key Key.space) rfl).1 ⟨Key.space, rfl⟩

/-- Direction commanded by a key, if any. -/
def keyDir : Key → Option Direction
  | .arrowUp | .keyW => some .up
  | .arrowDown | .keyS => some .down
  | .arrowLeft | .keyA => some .left
  | .arrowRight | .keyD => some .right
  | .space | .enter | .keyR => none

/-- The opposite heading (UP and DOWN, LEFT and RIGHT are opposite pairs). -/
def opposite : Direction → Direction
  | .up => .down
  | .down => .up
  | .left => .right
  | .right => .left

/-- C5: a direction-key input commanding the opposite of the current heading
never changes the heading. -/
theorem reversal_rejected (s : GameSt) (k : Key)
    (h : keyDir k = some (opposite s.direction)) :
    (handleKeyPress s k).direction = s.direction := by
  cases k <;> cases hdir : s.direction <;>
    simp_all [keyDir, opposite, handleKeyPress, startGame, togglePause, resetGame]

/-- C5 witness: heading RIGHT, pressing the LEFT arrow changes nothing. -/
theorem reversal_rejected_witness :
    keyDir Key.arrowLeft =
      some (opposite ({ initialState with gameState := .playing } : GameSt).direction) ∧
    (handleKeyPress { initialState with gameState := .playing } Key.arrowLeft).direction =
      ({ initialState with gameState := .playing } : GameSt).direction := by
  refine ⟨by decide, ?_⟩
  exact reversal_rejected { initialState with gameState := .playing } Key.arrowLeft (by decide)

/-- C2: from any reachable Menu state, the start command yields a Playing
state whose snake is the single cell (10,10), heading RIGHT, score 0,
level 1, speed the default 150, and whose food cell (15,15) is a valid food:
on the grid and not on the snake. (The start command itself only switches
gameState; in every reachable Menu state the entity fields still hold their
initial values, which is what makes the produced Playing state fresh.) -/
theorem start_from_menu (s : GameSt) (h : Reachable s)
    (hm : s.gameState = GState.menu) :
    (handleKeyPress s Key.space).gameState = GState.playing ∧
    (handleKeyPress s Key.space).snake = [⟨10, 10⟩] ∧
    (handleKeyPress s Key.space).direction = Direction.right ∧
    (handleKeyPress s Key.space).score = 0 ∧
    (handleKeyPress s Key.space).level = 1 ∧
    (handleKeyPress s Key.space).speed = INITIAL_SPEED ∧
    (handleKeyPress s Key.space).food = ⟨15, 15⟩ ∧
    inGrid (handleKeyPress s Key.space).food ∧
    onCell (handleKeyPress s Key.space).snake (handleKeyPress s Key.space).food
      = false := by
  have heq := reachable_menu_eq s h hm
  subst heq
  refine ⟨rfl, rfl, rfl, rfl, rfl, rfl, rfl, by decide, rfl⟩

/-- C2 witness: the initial state is a reachable Menu state. -/
theorem start_from_menu_witness :
    initialState.gameState = GState.menu ∧
    (handleKeyPress initialState Key.space).gameState = GState.playing ∧
    (handleKeyPress initialState Key.space).snake = [⟨10, 10⟩] := by
  have h := start_from_menu initialState Reachable.init rfl
  exact ⟨rfl, h.1, h.2.1⟩

/-- C3: in every reachable state, every snake cell has coordinates with
0 ≤ x < 20 and 0 ≤ y < 20. -/
theorem reachable_snake_in_grid (s : GameSt) (h : Reachable s) :
    ∀ c ∈ s.snake, 0 ≤ c.x ∧ c.x < 20 ∧ 0 ≤ c.y ∧ c.y < 20 := by
  have hi := (reachable_inv s h).2.1
  intro c hc
  exact hi c hc

/-- C3 witness: the single snake cell of the initial state. -/
theorem reachable_snake_in_grid_witness :
    0 ≤ (Pos.mk 10 10).x ∧ (Pos.mk 10 10).x < 20 ∧
    0 ≤ (Pos.mk 10 10).y ∧ (Pos.mk 10 10).y < 20 :=
  reachable_snake_in_grid initialState Reachable.init ⟨10, 10⟩ (by decide)

/-- C4: in every reachable state with gameState Playing or Paused, the food
cell differs from every snake cell. -/
theorem reachable_food_off_snake (s : GameSt) (h : Reachable s)
    (_hgs : s.gameState = GState.playing ∨ s.gameState = GState.paused) :
    ∀ c ∈ s.snake, c ≠ s.food := by
  have hf := (reachable_inv s h).2.2.1
  rw [onCell_false_iff] at hf
  intro c hc he
  exact hf (he ▸ hc)

/-- C4 witness: the Playing state reached by starting from the menu. -/
theorem reachable_food_off_snake_witness :
    (startGame initialState).gameState = GState.playing ∧
    ∀ c ∈ (startGame initialState).snake, c ≠ (startGame initialState).food := by
  refine ⟨rfl, ?_⟩
  exact reachable_food_off_snake (startGame initialState)
    (Reachable.step (Ev.key Key.space) Reachable.init rfl) (Or.inl rfl)

/-- C7: in every reachable state the tick interval equals
max(50, 150 - (level - 1) * 10), so in particular it is never below 50. -/
theorem tick_interval_formula (s : GameSt) (h : Reachable s) :
    s.speed = max 50 (150 - ((s.level : Int) - 1) * 10) ∧ 50 ≤ s.speed := by
  have h1 := (reachable_inv s h).2.2.2.2
  refine ⟨h1, ?_⟩
  rw [h1]
  exact le_max_left _ _

/-- C7 witness: the initial state. -/
theorem tick_interval_formula_witness :
    initialState.speed = max 50 (150 - ((initialState.level : Int) - 1) * 10) ∧
    50 ≤ initialState.speed :=
  tick_interval_formula initialState Reachable.init

/-- C6: in every reachable state the level is floor(score/5) + 1, and a
collision-free step onto the food cell increases the score by exactly 1. -/
theorem level_score_relation :
    (∀ s : GameSt, Reachable s → s.level = s.score / 5 + 1) ∧
    (∀ (rnd : Nat → Pos) (fuel : Nat) (s s' : GameSt) (cand : Pos),
      s.gameState = GState.playing → candHead s = some cand →
      checkCollision cand s.snake = false → cand = s.food →
      moveSnake rnd fuel s = some s' → s'.score = s.score + 1) := by
  constructor
  · intro s h
    exact (reachable_inv s h).2.2.2.1
  · intro rnd fuel s s' cand hg hcand hcol hfood hm
    rcases hsn : s.snake with _ | ⟨h0, t⟩
    · unfold candHead at hcand
      rw [hsn] at hcand
      cases hcand
    · unfold candHead at hcand
      rw [hsn] at hcand
      dsimp only at hcand
      injection hcand with hcand
      rw [hsn, ← hcand] at hcol
      rw [← hcand] at hfood
      exact (moveSnake_eat_result rnd fuel s s' h0 t hg hsn hcol hfood hm).2

/-- C6 witness: the initial state for the level formula, and a concrete step
onto the food for the score increment. -/
theorem level_score_relation_witness :
    initialState.level = initialState.score / 5 + 1 ∧
    ({ gameState := .playing, snake := [⟨15, 15⟩, ⟨14, 15⟩], direction := .right,
       food := ⟨0, 0⟩, score := 1, highScore := 0, speed := 150,
       level := 1 } : GameSt).score =
      ({ gameState := .playing, snake := [⟨14, 15⟩], direction := .right,
         food := ⟨15, 15⟩, score := 0, highScore := 0, speed := 150,
         level := 1 } : GameSt).score + 1 := by
  constructor
  · exact level_score_relation.1 initialState Reachable.init
  · exact level_score_relation.2 (fun _ => ⟨0, 0⟩) 1
      { gameState := .playing, snake := [⟨14, 15⟩], direction := .right,
        food := ⟨15, 15⟩, score := 0, highScore := 0, speed := 150, level := 1 }
      { gameState := .playing, snake := [⟨15, 15⟩, ⟨14, 15⟩], direction := .right,
        food := ⟨0, 0⟩, score := 1, highScore := 0, speed := 150, level := 1 }
      ⟨15, 15⟩ rfl (by decide) (by decide) (by decide) (by decide)

/-- The 400 cells of the 20 by 20 grid as a finite set. -/
def gridCells : Finset Pos :=
  ((Finset.Icc (0 : Int) 19) ×ˢ (Finset.Icc (0 : Int) 19)).image fun p => ⟨p.1, p.2⟩

theorem mem_gridCells (c : Pos) : c ∈ gridCells ↔ inGrid c := by
  unfold gridCells inGrid GRID_SIZE
  simp only [Finset.mem_image, Finset.mem_product, Finset.mem_Icc, Prod.exists]
  constructor
  · rintro ⟨a, b, ⟨⟨h1, h2⟩, h3, h4⟩, rfl⟩
    show 0 ≤ a ∧ a < 20 ∧ 0 ≤ b ∧ b < 20
    omega
  · rintro ⟨h1, h2, h3, h4⟩
    exact ⟨c.x, c.y, ⟨⟨h1, by omega⟩, h3, by omega⟩, rfl⟩

theorem gridCells_card : gridCells.card = 400 := by
  unfold gridCells
  rw [Finset.card_image_of_injective _ ?_, Finset.card_product]
  · simp [Int.card_Icc]
  · intro a b hab
    cases a
    cases b
    simpa [Pos.mk.injEq, Prod.ext_iff] using hab

/-- C9: whenever the snake occupies strictly fewer than 400 grid cells, the
food-placement resampling loop terminates (for some iteration bound, given
that the sampling stream reaches every grid cell as a genuinely random one
does) and returns a cell not occupied by the snake. -/
theorem generateFood_terminates (snakePositions : List Pos) (rnd : Nat → Pos)
    (hocc : (gridCells.filter fun c => onCell snakePositions c = true).card < 400)
    (hcov : ∀ c ∈ gridCells, ∃ i, rnd i = c) :
    ∃ fuel f, generateFoodLoop snakePositions rnd fuel 0 = some f ∧
      onCell snakePositions f = false := by
  have hfree : ∃ c ∈ gridCells, onCell snakePositions c = false := by
    by_contra hno
    push_neg at hno
    have hall : gridCells.filter (fun c => onCell snakePositions c = true) = gridCells := by
      apply Finset.filter_eq_self.mpr
      intro c hc
      cases h2 : onCell snakePositions c
      · exact absurd h2 (hno c hc)
      · rfl
    rw [hall, gridCells_card] at hocc
    omega
  obtain ⟨c, hcg, hcfree⟩ := hfree
  obtain ⟨i, hi⟩ := hcov c hcg
  obtain ⟨fuel, f, hf⟩ := generateFoodLoop_reaches snakePositions rnd i 0
    (by rw [Nat.zero_add, hi]; exact hcfree)
  exact ⟨fuel, f, hf, generateFoodLoop_some_free _ _ _ _ _ hf⟩

/-- C9 witness: a one-cell snake and a sampling stream enumerating the grid
row by row. -/
theorem generateFood_terminates_witness :
    ∃ fuel f,
      generateFoodLoop [⟨10, 10⟩]
        (fun i => ⟨((i % 20 : Nat) : Int), ((i / 20 % 20 : Nat) : Int)⟩) fuel 0 = some f ∧
      onCell [⟨10, 10⟩] f = false := by
  apply generateFood_terminates
  · have hss : (gridCells.filter fun c => onCell [(⟨10, 10⟩ : Pos)] c = true) ⊂ gridCells := by
      refine ⟨Finset.filter_subset _ _, fun hsub => ?_⟩
      have h0 : (⟨0, 0⟩ : Pos) ∈ gridCells := (mem_gridCells _).mpr (by decide)
      have h1 := hsub h0
      rw [Finset.mem_filter] at h1
      exact absurd h1.2 (by decide)
    calc (gridCells.filter fun c => onCell [(⟨10, 10⟩ : Pos)] c = true).card
        < gridCells.card := Finset.card_lt_card hss
      _ = 400 := gridCells_card
  · intro c hc
    rw [mem_gridCells] at hc
    cases c with
    | mk x y =>
      have h1 : (0 : Int) ≤ x := hc.1
      have h2 : x < 20 := hc.2.1
      have h3 : (0 : Int) ≤ y := hc.2.2.1
      have h4 : y < 20 := hc.2.2.2
      refine ⟨x.toNat + 20 * y.toNat, ?_⟩
      simp only [Pos.mk.injEq]
      constructor <;> omega

end Snake
